import Mathlib

/-!
Shallow embedding of the CV document renderer in src/src/_latex/cv.11ty.js.

Pure string templating is embedded as Lean functions on explicit record
types; stateful array operations (in-place sorts) are embedded as explicit
state passing; the subprocess close handler is embedded as a function from
the exit code to the list of file-system actions it performs.  Host
(ECMAScript built-in) functions are modelled where the renderer calls
them: Date parsing, Array.prototype.sort, String.prototype.replace,
String.prototype.localeCompare; each model carries a comment saying what
it models.  String computations are carried out on the character lists
underlying Lean strings so that every definition evaluates by kernel
reduction.
-/

namespace CV

/-- JavaScript truthiness of an optional string field: an absent
(undefined) field and the empty string are falsy, every other string is
truthy. -/
def jsTruthy : Option String → Bool
  | none => false
  | some s => s != ""

/-- Value of a character list that is a nonempty run of decimal digits;
none otherwise. -/
def digitsVal (cs : List Char) : Option Nat :=
  if cs ≠ [] ∧ cs.all Char.isDigit then
    some (cs.foldl (fun acc c => 10 * acc + (c.toNat - 48)) 0)
  else none

/-- Split a character list at every dash character. -/
def splitDash : List Char → List (List Char)
  | [] => [[]]
  | c :: cs =>
    if c == '-' then [] :: splitDash cs
    else
      match splitDash cs with
      | [] => [[c]]
      | g :: gs => (c :: g) :: gs

/-- Largest admissible day number of a month (February is allowed 29 days
in every year; nothing in the claims depends on leap-year handling). -/
def monthLen (m : Nat) : Nat :=
  if m = 2 then 29 else if m = 4 ∨ m = 6 ∨ m = 9 ∨ m = 11 then 30 else 31

/-- Models the host function Date.parse restricted to ISO-8601
calendar-date strings of the form YYYY-MM-DD, the format the repository
data uses.  The result is none where the host returns NaN (an unparsable
string) and otherwise a number strictly monotone in the calendar date,
standing in for the epoch timestamp. -/
def parseDate (s : String) : Option Nat :=
  match splitDash s.data with
  | [y, m, d] =>
    match digitsVal y, digitsVal m, digitsVal d with
    | some yn, some mn, some dn =>
      if 1 ≤ mn ∧ mn ≤ 12 ∧ 1 ≤ dn ∧ dn ≤ monthLen mn then
        some (yn * 10000 + mn * 100 + dn)
      else none
    | _, _, _ => none
  | _ => none

/-- Embedding of getYear (cv.11ty.js lines 42-44): the year component of
new Date(dateString), with none standing for the NaN that getFullYear
returns on an invalid date.  The host call never throws, and the
embedding is a total function. -/
def getYear (dateString : String) : Option Nat :=
  (parseDate dateString).map (fun n => n / 10000)

/-- Interpolation of a getYear result into a template literal: the NaN of
an invalid date prints as the literal text NaN. -/
def yearString (s : String) : String :=
  match getYear s with
  | some y => toString y
  | none => "NaN"

/-- Models Date.parse applied to a possibly-undefined field: Date.parse of
undefined is NaN (none). -/
def jsDateParse : Option String → Option Nat
  | none => none
  | some s => parseDate s

/-- Comparison a > b on Date.parse results; false whenever either side is
NaN, as in JavaScript. -/
def dGT : Option Nat → Option Nat → Bool
  | some a, some b => decide (b < a)
  | _, _ => false

/-- Comparison a < b on Date.parse results; false whenever either side is
NaN, as in JavaScript. -/
def dLT : Option Nat → Option Nat → Bool
  | some a, some b => decide (a < b)
  | _, _ => false

/-- The comparator body of sortByDate (cv.11ty.js lines 51-57): -1 when
the first parsed date is greater, 1 when it is smaller, 0 otherwise (in
particular whenever either side is NaN). -/
def dateCompare (x y : Option Nat) : Int :=
  if dGT x y then -1 else if dLT x y then 1 else 0

/-- Insertion step of the stable sort modelling Array.prototype.sort. -/
def jsInsert (le : α → α → Bool) (a : α) : List α → List α
  | [] => [a]
  | b :: l => if le a b then a :: b :: l else b :: jsInsert le a l

/-- Models Array.prototype.sort with a comparator: ECMAScript requires a
stable permutation of the input, sorted whenever the comparator is
consistent; for an inconsistent comparator the resulting order is
implementation-defined, and this embedding fixes it as a stable insertion
sort.  Here le a b stands for comparator(a, b) <= 0, that is, a may stay
in front of b. -/
def jsSort (le : α → α → Bool) : List α → List α
  | [] => []
  | b :: l => jsInsert le b (jsSort le l)

/-- Embedding of sortByDate (cv.11ty.js lines 48-58).  The source copies
the array with slice(0) before sorting, so the input is untouched; the
copy is sorted with the comparator dateCompare on Date.parse of the
selected field. -/
def sortByDate (array : List α) (key : α → Option String) : List α :=
  jsSort (fun a b => decide (dateCompare (jsDateParse (key a)) (jsDateParse (key b)) ≤ 0)) array

/-- The date-field ordering used by sortByDate: entry a may stay in front
of entry b when the comparator does not demand a swap. -/
def dateLeKey (key : α → Option String) (a b : α) : Bool :=
  decide (dateCompare (jsDateParse (key a)) (jsDateParse (key b)) ≤ 0)

/-- Author record inside a paper front matter; only the name is read. -/
structure Author where
  name : String
deriving DecidableEq

/-- Front-matter data of a paper (paper.data in the source). -/
structure PaperData where
  title : String
  authors : List Author
  journal : Option String
  published : Bool
  accepted : Bool
  rnr : Bool
  year : String
deriving DecidableEq

/-- Front matter holder (paper.template.frontMatter in the source). -/
structure FrontMatter where
  content : String
deriving DecidableEq

/-- Template record of a paper (paper.template in the source). -/
structure Template where
  frontMatter : FrontMatter
deriving DecidableEq

/-- An Eleventy collection item for a paper. -/
structure Paper where
  data : PaperData
  url : String
  template : Template
deriving DecidableEq

/-- A degree inside an education entry; the third source field is named
end, a Lean keyword, so it is embedded as end_. -/
structure Degree where
  title : String
  start : String
  end_ : String
deriving DecidableEq

/-- An education entry. -/
structure Education where
  school : String
  degrees : List Degree
deriving DecidableEq

/-- A presentation entry; the first source field is named where, a Lean
keyword, so it is embedded as where_. -/
structure Presentation where
  where_ : String
  date : String
deriving DecidableEq

/-- An award or research-experience entry; the source fields for, from and
end are Lean keywords, so they are embedded as for_, from_ and end_.
Fields the data may leave out are optional. -/
structure Award where
  title : Option String
  for_ : Option String
  from_ : Option String
  date : Option String
  start : Option String
  end_ : Option String
deriving DecidableEq

/-- A software project entry. -/
structure Project where
  title : String
  url : String
  github : Option String
deriving DecidableEq

/-- A reference entry. -/
structure Reference where
  title : String
  url : String
  description : String
  email : String
deriving DecidableEq

/-- The site profile (data.site in the source). -/
structure Site where
  title : String
  bio : String
  email : String
  url : String
  linkedin : String
  github : String
deriving DecidableEq

/-- The CV data object (data.cv in the source). -/
structure Cv where
  education : List Education
  presentations : List Presentation
  refereeing : List String
  awards : List Award
  researchexp : List Award
  references : List Reference
deriving DecidableEq

/-- The render context handed to render(data).  The three dashed source
keys projects-academic, projects-professional and projects-personal are
embedded with underscores. -/
structure RenderData where
  site : Site
  cv : Cv
  papers : List Paper
  projects_academic : List Project
  projects_professional : List Project
  projects_personal : List Project
deriving DecidableEq

/-- Interpolation of a possibly-undefined string field into a template
literal: undefined prints as the literal text undefined. -/
def jsStr : Option String → String
  | none => "undefined"
  | some s => s

/-- Models Array.prototype.join with a separator. -/
def joinSep (sep : String) : List String → String
  | [] => ""
  | [x] => x
  | x :: y :: xs => x ++ sep ++ joinSep sep (y :: xs)

/-- Test that the first list is an initial run of the second. -/
def leadsWith : List Char → List Char → Bool
  | [], _ => true
  | _ :: _, [] => false
  | p :: ps, c :: cs => p == c && leadsWith ps cs

/-- Models String.prototype.replace with a plain-string pattern: only the
first occurrence of the pattern is replaced. -/
def replaceFirstChars (pat rep : List Char) : List Char → List Char
  | [] => if pat.isEmpty then rep else []
  | c :: rest =>
    if leadsWith pat (c :: rest) then rep ++ (c :: rest).drop pat.length
    else c :: replaceFirstChars pat rep rest

/-- String-level wrapper of replaceFirstChars. -/
def jsReplace (s pat rep : String) : String :=
  String.mk (replaceFirstChars pat.data rep.data s.data)

/-- Index of the first occurrence of a pattern in a character list, in the
manner of String.prototype.indexOf. -/
def findSub (pat : List Char) : List Char → Option Nat
  | [] => if pat.isEmpty then some 0 else none
  | c :: rest =>
    if leadsWith pat (c :: rest) then some 0
    else (findSub pat rest).map (fun n => n + 1)

/-- ASCII lowercasing of one character, the case folding relevant to the
repository data. -/
def lowerChar (c : Char) : Char :=
  if 'A' ≤ c ∧ c ≤ 'Z' then Char.ofNat (c.toNat + 32) else c

/-- Case-insensitive key of a string: its character list lowercased. -/
def lowerKey (s : String) : List Char := s.data.map lowerChar

/-- Lexicographic three-way comparison of character lists by code point. -/
def lexCmp : List Char → List Char → Int
  | [], [] => 0
  | [], _ :: _ => -1
  | _ :: _, [] => 1
  | a :: as, b :: bs =>
    if a.toNat < b.toNat then -1
    else if b.toNat < a.toNat then 1
    else lexCmp as bs

/-- Models String.prototype.localeCompare under the default locale for the
ASCII project titles of the repository data: the primary comparison is
case-insensitive lexicographic and an exact code-point comparison breaks
primary ties, so equal strings compare 0. -/
def localeCompare (a b : String) : Int :=
  if lexCmp (lowerKey a) (lowerKey b) = 0 then lexCmp a.data b.data
  else lexCmp (lowerKey a) (lowerKey b)

/-- Models the ECMAScript default sort comparator on strings: compare as
strings by code units; le a b says a need not move behind b. -/
def jsStrLe (a b : String) : Bool := decide (lexCmp a.data b.data ≤ 0)

/-- Embedding of the per-degree line of texEducation (cv.11ty.js lines
84-88). -/
def texDegree (degree : Degree) : String :=
  "\\cvsubsubsection\x7b" ++ degree.title ++ "\x7d \\dateright\x7b" ++
    yearString degree.start ++ "--" ++ yearString degree.end_ ++ "\x7d"

/-- Embedding of the per-school block of texEducation (cv.11ty.js lines
82-91). -/
def texEducationEntry (edu : Education) : String :=
  "\\cvsubsection\x7b" ++ edu.school ++ "\x7d\n\n" ++
    joinSep "\n\n" (edu.degrees.map texDegree)

/-- Embedding of texEducation (cv.11ty.js lines 80-93). -/
def texEducation (education : List Education) : String :=
  joinSep "\n\n" (education.map texEducationEntry)

/-- Modelled from the spec: the Eleventy helper this.where_not(list, key,
value) is not part of the source tree under src; following the spec text
(a co-author annotation listing all authors except the profile owner), it
keeps the entries whose field named by the key differs from the given
value; the renderer applies it to the author list with the name key. -/
def where_not_name (authors : List Author) (value : String) : List Author :=
  authors.filter (fun x => x.name != value)

/-- Modelled from the spec: the Eleventy helper this.where(collection,
key) is not part of the source tree under src; following the spec text
(papers selected by the accepted flag), it keeps the papers whose
front-matter flag named by the key is set.  The renderer only uses the
accepted key. -/
def whereAccepted (papers : List Paper) : List Paper :=
  papers.filter (fun p => p.data.accepted)

/-- Modelled from the spec: the complementary Eleventy helper
this.where_not(collection, key), keeping the papers whose front-matter
flag named by the key is not set. -/
def whereNotAccepted (papers : List Paper) : List Paper :=
  papers.filter (fun p => !p.data.accepted)

/-- Embedding of the co-author annotation of texPapers (cv.11ty.js lines
100-109). -/
def withString (site : Site) (paper : Paper) : String :=
  if paper.data.authors.length > 1 then
    " (with " ++
      joinSep ", " ((where_not_name paper.data.authors site.title).map (fun x => x.name)) ++ ")"
  else ""

/-- Embedding of the status annotation of texPapers (cv.11ty.js lines
110-121). -/
def journalString (paper : Paper) : String :=
  if jsTruthy paper.data.journal && paper.data.published then
    "\n\n\\cvsubsubsection\x7b" ++ jsStr paper.data.journal ++ " " ++ paper.data.year ++ "\x7d"
  else if jsTruthy paper.data.journal && paper.data.accepted then
    "\n\n\\cvsubsubsection\x7bAccepted at " ++ jsStr paper.data.journal ++ "\x7d"
  else if jsTruthy paper.data.journal && paper.data.rnr then
    "\n\n\\cvsubsubsection\x7bR\\&R at " ++ jsStr paper.data.journal ++ "\x7d"
  else ""

/-- Embedding of the per-paper block of texPapers (cv.11ty.js lines
99-126), including the trailing indentation of the template literal. -/
def texPaperEntry (site : Site) (paper : Paper) : String :=
  "\\cvsubsection\x7b\\href\x7b" ++ site.url ++ paper.url ++ "\x7d\x7b``" ++
    paper.data.title ++ "\x27\x27\x7d\x7d" ++ withString site paper ++ journalString paper ++
    "\n\n\\begin\x7bmarkdown\x7d" ++ paper.template.frontMatter.content ++
    "\\end\x7bmarkdown\x7d\n          "

/-- Embedding of texPapers (cv.11ty.js lines 97-128). -/
def texPapers (site : Site) (papers : List Paper) : String :=
  joinSep "\n\n" (papers.map (texPaperEntry site))

/-- Embedding of the per-presentation line of texPresentations (cv.11ty.js
line 135). -/
def texPresentationEntry (pres : Presentation) : String :=
  pres.where_ ++ " \\dateright\x7b" ++ yearString pres.date ++ "\x7d"

/-- Embedding of texPresentations (cv.11ty.js lines 131-138). -/
def texPresentations (presentations : List Presentation) : String :=
  joinSep "\n\n" ((sortByDate presentations (fun p => some p.date)).map texPresentationEntry)

/-- Embedding of the per-entry date annotation of texAwards (cv.11ty.js
lines 146-151): a single date wins over a start and end pair, and with
neither the annotation is empty. -/
def awardDateString (award : Award) : String :=
  if jsTruthy award.date then
    " \\dateright\x7b" ++ yearString (jsStr award.date) ++ "\x7d"
  else if jsTruthy award.start && jsTruthy award.end_ then
    " \\dateright\x7b" ++ yearString (jsStr award.start) ++ "--" ++
      yearString (jsStr award.end_) ++ "\x7d"
  else ""

/-- Embedding of the per-entry descriptive text of texAwards (cv.11ty.js
lines 153-156): title, for and from where truthy, joined with a comma and
a space. -/
def awardText (award : Award) : String :=
  joinSep ", " (([award.title, award.for_, award.from_].filter jsTruthy).map jsStr)

/-- One formatted award line (cv.11ty.js lines 145-157). -/
def texAwardEntry (award : Award) : String :=
  awardText award ++ awardDateString award

/-- Embedding of texAwards (cv.11ty.js lines 142-159); the same function
formats the research-experience section. -/
def texAwards (awards : List Award) : String :=
  joinSep "\n\n" ((sortByDate awards (fun a => a.date)).map texAwardEntry)

/-- Embedding of the per-project line of texList (cv.11ty.js lines
165-170). -/
def texListEntry (project : Project) : String :=
  "\\cvsubsubsection\x7b\\href\x7b" ++ project.url ++ "\x7d\x7b" ++ project.title ++ "\x7d\x7d" ++
    (if jsTruthy project.github then
      "\\dateright\x7b\\href\x7b" ++ jsStr project.github ++ "\x7d\x7b\\faGithub\\ Source\x7d\x7d"
    else "")

/-- Embedding of texList (cv.11ty.js lines 163-173). -/
def texList (projects : List Project) : String :=
  joinSep "\n\n" (projects.map texListEntry)

/-- De-obfuscation of a stored reference email (cv.11ty.js lines 183-186):
String.prototype.replace substitutes an at sign for the first occurrence
of the two-dot placeholder. -/
def deobfuscate (email : String) : String :=
  jsReplace email ".." "@"

/-- Embedding of the per-reference block of texReferences (cv.11ty.js
lines 179-186), including the indentation of the template literal. -/
def texReferenceEntry (reference : Reference) : String :=
  "\\cvsubsection\x7b\\href\x7b" ++ reference.url ++ "\x7d\x7b" ++ reference.title ++
    "\x7d\x7d\n          \n          \\cvsubsubsection\x7b" ++ reference.description ++
    "\x7d\n          \n          \\href\x7bmailto:" ++ jsReplace reference.email ".." "@" ++
    "\x7d\x7b" ++ jsReplace reference.email ".." "@" ++ "\x7d"

/-- Embedding of texReferences (cv.11ty.js lines 176-189). -/
def texReferences (references : List Reference) : String :=
  joinSep "\n\n" (references.map texReferenceEntry)

/-- Word character test of the regular expression class backslash-w. -/
def wordChar (c : Char) : Bool := c.isAlphanum || c == '_'

/-- Models the anchored regex replace on line 69 of cv.11ty.js, which
deletes a leading scheme-colon-slash-slash or a leading slash-slash from
the site URL. -/
def stripProtocol (s : String) : String :=
  let cs := s.data
  let w := cs.takeWhile wordChar
  if w ≠ [] ∧ (cs.drop w.length).take 3 = [':', '/', '/'] then
    String.mk (cs.drop (w.length + 3))
  else if cs.take 2 = ['/', '/'] then String.mk (cs.drop 2)
  else s

/-- Embedding of texAddressLine (cv.11ty.js lines 65-77). -/
def texAddressLine (site : Site) : String :=
  "\\href\x7bmailto:" ++ site.email ++ "\x7d\x7b" ++ site.email ++
    "\x7d\n    \x7b\\hspace\x7b0.1em\x7d\\textbullet\\hspace\x7b0.1em\x7d\x7d\n    \\href\x7b" ++
    site.url ++ "\x7d\x7b" ++ stripProtocol site.url ++
    "\x7d \n    \x7b\\hspace\x7b0.1em\x7d\\textbullet\\hspace\x7b0.1em\x7d\x7d\n    \\href\x7bhttps://linkedin.com/in/" ++
    site.linkedin ++ "\x7d\x7b\\faLinkedin/" ++ site.linkedin ++
    "\x7d \n    \x7b\\hspace\x7b0.1em\x7d\\textbullet\\hspace\x7b0.1em\x7d\x7d\n    \\href\x7bhttps://github.com/" ++
    site.github ++ "\x7d\x7b\\faGithub/" ++ site.github ++ "\x7d"

/-- The comparator le relation of the project sorts in texBody (cv.11ty.js
lines 255 and 263). -/
def projectLe (a b : Project) : Bool := decide (localeCompare a.title b.title ≤ 0)

/-- The academic software list as sorted in texBody (cv.11ty.js line 255);
the source sorts the stored array itself, in place. -/
def softwareAcademic (d : RenderData) : List Project :=
  jsSort projectLe d.projects_academic

/-- The other-software list as sorted in texBody (cv.11ty.js lines
260-264); concat builds a fresh array, which is then sorted. -/
def softwareOther (d : RenderData) : List Project :=
  jsSort projectLe (d.projects_professional ++ d.projects_personal)

/-- The refereeing list as sorted in texBody (cv.11ty.js line 237); the
source sorts the stored array itself, in place, with the default string
comparator. -/
def refereeingSorted (d : RenderData) : List String :=
  jsSort jsStrLe d.cv.refereeing

/-- The accepted partition of the papers collection, rendered under the
Publications heading (cv.11ty.js line 222). -/
def publicationsPapers (d : RenderData) : List Paper := whereAccepted d.papers

/-- The complementary partition, rendered under the Working Papers heading
(cv.11ty.js line 227). -/
def workingPapers (d : RenderData) : List Paper := whereNotAccepted d.papers

/-- Embedding of the texBody template literal (cv.11ty.js lines 195-269). -/
def texBody (d : RenderData) : String :=
  "%%% Make a header for CV with personal data\n\\begin\x7bcenter\x7d\n  \\headernamestyle\x7b\n    " ++
  d.site.title ++
  "\n  \x7d\n  \\\\\n  \\vspace\x7b0.6mm\x7d\n  \\headerpositionstyle\x7b\n    " ++
  d.site.bio ++
  "\n  \x7d\n  \\\\\n  \\vspace\x7b0.4mm\x7d\n  \\headeraddressstyle\x7b\n    " ++
  texAddressLine d.site ++
  "\n  \x7d\n  \\\\\n  \\vspace\x7b-1mm\x7d\n\\end\x7bcenter\x7d\n\n%%% Education\n\\cvsection\x7bEducation\x7d\n\n" ++
  texEducation d.cv.education ++
  "\n\n%%% Publications\n\\cvsection\x7bPublications\x7d\n\n" ++
  texPapers d.site (publicationsPapers d) ++
  "\n\n%%% Working papers\n\\cvsection\x7bWorking Papers\x7d\n\n" ++
  texPapers d.site (workingPapers d) ++
  "\n\n%%% Presentations\n\\cvsection\x7bPresentations\x7d\\vspace\x7b1.618ex\x7d\n\n" ++
  texPresentations d.cv.presentations ++
  "\n\n%%% Refereeing\n\\cvsection\x7bRefereeing\x7d\\vspace\x7b1.618ex\x7d\n\n" ++
  joinSep ", " (refereeingSorted d) ++
  "\n\n%%% Fellowships \\& Awards\n\\cvsection\x7bFellowships \\& Awards\x7d\\vspace\x7b1.618ex\x7d\n\n" ++
  texAwards d.cv.awards ++
  "\n\n%%% RA Experience\n\\cvsection\x7bResearch Experience\x7d\\vspace\x7b1.618ex\x7d\n\n" ++
  texAwards d.cv.researchexp ++
  "\n\n%%% Software\n\\cvsection\x7bSoftware\x7d\n\n\\cvsubsection\x7bResearch Software Packages\x7d\n\n" ++
  texList (softwareAcademic d) ++
  "\n\n\\cvsubsection\x7bOther Software \\& Projects\x7d\n\n" ++
  texList (softwareOther d) ++
  "\n\n%%% References\n\\cvsection\x7bReferences\x7d\n" ++
  texReferences d.cv.references ++
  "\n"

/-- The state of the supplied data context after texBody has been
evaluated: Array.prototype.sort sorts in place, so the refereeing list
(line 237) and the projects-academic list (line 255) are left in sorted
order, while every other collection is only read (sortByDate copies with
slice, concat builds a fresh array, and map and filter do not mutate). -/
def renderDataAfter (d : RenderData) : RenderData :=
  { d with
    cv := { d.cv with refereeing := refereeingSorted d }
    projects_academic := softwareAcademic d }

/-- File-system actions visible to this component. -/
inductive FsAction where
  | rename (src dst : String)
  | log (msg : String)
deriving DecidableEq

/-- Embedding of the close handler of the LuaLaTeX subprocess (cv.11ty.js
lines 291-303): the calls the handler performs, in order, as a function
of the exit code.  The success log line sits inside the rename callback
and runs only after the rename has succeeded, so it is not an action of
the handler itself. -/
def onClose (code : Int) : List FsAction :=
  if code ≠ 0 then
    [FsAction.log ("LuaLaTeX process exited with code " ++ toString code ++ ".")]
  else
    [FsAction.rename "./tmp/cv.pdf" "./dist/cv.pdf"]

/-- Number of relocation calls in an action list. -/
def renameCount (l : List FsAction) : Nat :=
  (l.filter (fun a => match a with | FsAction.rename _ _ => true | _ => false)).length

/-- Number of diagnostic log lines in an action list. -/
def logCount (l : List FsAction) : Nat :=
  (l.filter (fun a => match a with | FsAction.log _ => true | _ => false)).length

/-- Embedding of the return value of render (cv.11ty.js line 306): the
function returns undefined on every path, whatever the exit code of the
compiler later turns out to be, and the close handler raises nothing. -/
def renderResult (_code : Int) : Option String := none

/-- The award entry as the specification words it, for comparison with
the embedded formatter: the non-empty descriptive fields among title,
for and from joined with a comma and a space, then a date annotation
chosen by priority (a present single date gives that date's year,
otherwise a present start and end pair gives the year range, otherwise
nothing). -/
def awardEntrySpec (a : Award) : String :=
  joinSep ", " (([a.title, a.for_, a.from_].filterMap id).filter (fun s => s != "")) ++
    (if jsTruthy a.date then " \\dateright\x7b" ++ yearString (jsStr a.date) ++ "\x7d"
     else if jsTruthy a.start && jsTruthy a.end_ then
       " \\dateright\x7b" ++ yearString (jsStr a.start) ++ "--" ++
         yearString (jsStr a.end_) ++ "\x7d"
     else "")

/-- A small concrete site profile for witness instances. -/
def sampleSite : Site :=
  { title := "Matt", bio := "Economist", email := "m@example.org",
    url := "https://example.org", linkedin := "mwt", github := "mwt" }

/-- The profile owner as an author record, for witness instances. -/
def sampleAuthorOwner : Author := { name := "Matt" }

/-- A co-author record, for witness instances. -/
def sampleAuthorCo : Author := { name := "Jane" }

/-- A concrete accepted paper, for witness instances. -/
def samplePaperAccepted : Paper :=
  { data := { title := "A", authors := [sampleAuthorOwner, sampleAuthorCo],
              journal := some "J", published := false, accepted := true,
              rnr := false, year := "2024" },
    url := "/a/", template := { frontMatter := { content := "ca" } } }

/-- A concrete not-accepted paper whose sole author is the owner, for
witness instances. -/
def samplePaperWorking : Paper :=
  { data := { title := "B", authors := [sampleAuthorOwner],
              journal := none, published := false, accepted := false,
              rnr := false, year := "" },
    url := "/b/", template := { frontMatter := { content := "cb" } } }

/-- A small concrete render context, for witness and counterexample
instances: the refereeing list is stored out of alphabetical order. -/
def sampleData : RenderData :=
  { site := sampleSite,
    cv := { education := [], presentations := [], refereeing := ["b", "a"],
            awards := [], researchexp := [], references := [] },
    papers := [samplePaperAccepted, samplePaperWorking],
    projects_academic := [], projects_professional := [], projects_personal := [] }

theorem sortByDate_eq_jsSort (array : List α) (key : α → Option String) :
    sortByDate array key = jsSort (dateLeKey key) array := rfl

theorem jsInsert_perm (le : α → α → Bool) (a : α) :
    ∀ l : List α, List.Perm (jsInsert le a l) (a :: l) := by
  intro l
  induction l with
  | nil => exact List.Perm.refl _
  | cons b t ih =>
    by_cases h : le a b = true
    · simp [jsInsert, h]
    · simp only [jsInsert, if_neg h]
      exact (ih.cons b).trans (List.Perm.swap a b t)

theorem jsSort_perm (le : α → α → Bool) :
    ∀ l : List α, List.Perm (jsSort le l) l := by
  intro l
  induction l with
  | nil => exact List.Perm.refl _
  | cons b t ih =>
    exact (jsInsert_perm le b (jsSort le t)).trans (ih.cons b)

theorem jsInsert_eq_take_drop (le : α → α → Bool) (a : α) :
    ∀ l : List α,
      jsInsert le a l =
        l.takeWhile (fun y => !le a y) ++ a :: l.dropWhile (fun y => !le a y) := by
  intro l
  induction l with
  | nil => rfl
  | cons b t ih =>
    by_cases h : le a b = true
    · simp [jsInsert, List.takeWhile, List.dropWhile, h]
    · simp [jsInsert, List.takeWhile, List.dropWhile, h, ih]

theorem sublist_jsInsert (le : α → α → Bool) (a : α) (c l : List α)
    (h : List.Sublist c l) : List.Sublist c (jsInsert le a l) := by
  rw [jsInsert_eq_take_drop]
  refine h.trans ?_
  conv_lhs => rw [← List.takeWhile_append_dropWhile (fun y => !le a y) l]
  exact (List.sublist_cons_self a _).append_left _

theorem jsInsert_head (le : α → α → Bool) (a : α) (l : List α) :
    (jsInsert le a l).head? = some a ∨ (jsInsert le a l).head? = l.head? := by
  cases l with
  | nil => exact Or.inl rfl
  | cons b t =>
    by_cases h : le a b = true
    · simp [jsInsert, h]
    · simp [jsInsert, h]

theorem chain'_jsInsert (le : α → α → Bool)
    (tot : ∀ a b : α, le a b = true ∨ le b a = true) (a : α) :
    ∀ l : List α, List.Chain' (fun x y => le x y = true) l →
      List.Chain' (fun x y => le x y = true) (jsInsert le a l) := by
  intro l
  induction l with
  | nil => intro _; simp [jsInsert]
  | cons b t ih =>
    intro h
    by_cases hab : le a b = true
    · simp only [jsInsert, if_pos hab]
      exact h.cons hab
    · simp only [jsInsert, if_neg hab]
      rw [List.chain'_cons']
      constructor
      · intro y hy
        rcases jsInsert_head le a t with h1 | h1
        · rw [h1] at hy
          cases hy
          rcases tot a b with h2 | h2
          · exact absurd h2 hab
          · exact h2
        · rw [h1] at hy
          exact (List.chain'_cons'.mp h).1 y hy
      · exact ih h.tail

theorem jsSort_chain' (le : α → α → Bool)
    (tot : ∀ a b : α, le a b = true ∨ le b a = true) :
    ∀ l : List α, List.Chain' (fun x y => le x y = true) (jsSort le l) := by
  intro l
  induction l with
  | nil => simp [jsSort]
  | cons b t ih => exact chain'_jsInsert le tot b _ ih

theorem jsInsert_eq_cons (le : α → α → Bool) (a : α) (l : List α)
    (h : ∀ c, l.head? = some c → le a c = true) : jsInsert le a l = a :: l := by
  cases l with
  | nil => rfl
  | cons b t => simp [jsInsert, h b rfl]

theorem jsSort_eq_of_chain' (le : α → α → Bool) :
    ∀ l : List α, List.Chain' (fun x y => le x y = true) l → jsSort le l = l := by
  intro l
  induction l with
  | nil => intro _; rfl
  | cons b t ih =>
    intro h
    show jsInsert le b (jsSort le t) = b :: t
    rw [ih h.tail]
    exact jsInsert_eq_cons le b t (fun c hc => by
      cases t with
      | nil => cases hc
      | cons c' t' =>
        cases hc
        exact (List.chain'_cons'.mp h).1 _ rfl)

theorem jsSort_idem (le : α → α → Bool)
    (tot : ∀ a b : α, le a b = true ∨ le b a = true) (l : List α) :
    jsSort le (jsSort le l) = jsSort le l :=
  jsSort_eq_of_chain' le _ (jsSort_chain' le tot l)

theorem jsSort_stable (le : α → α → Bool) (a b : α) :
    ∀ l : List α, List.Sublist [a, b] l → le a b = true →
      List.Sublist [a, b] (jsSort le l) := by
  intro l
  induction l with
  | nil => intro h _; cases h
  | cons x t ih =>
    intro hsub hab
    cases hsub with
    | cons _ h =>
      exact sublist_jsInsert le x _ _ (ih h hab)
    | cons₂ _ h =>
      show List.Sublist [a, b] (jsInsert le a (jsSort le t))
      rw [jsInsert_eq_take_drop]
      have hb : b ∈ jsSort le t :=
        (jsSort_perm le t).mem_iff.mpr (List.singleton_sublist.mp h)
      have hbdrop : b ∈ (jsSort le t).dropWhile (fun y => !le a y) := by
        rcases List.mem_append.mp
          (by rw [List.takeWhile_append_dropWhile (fun y => !le a y) (jsSort le t)]; exact hb)
          with h1 | h1
        · exact absurd hab (by simpa using List.mem_takeWhile_imp h1)
        · exact h1
      refine List.Sublist.trans ?_ (List.sublist_append_right _ _)
      exact (List.singleton_sublist.mpr hbdrop).cons₂ a

theorem chain'_pairwise_local {R : α → α → Prop} :
    ∀ {l : List α}, (∀ a ∈ l, ∀ b ∈ l, ∀ c ∈ l, R a b → R b c → R a c) →
      List.Chain' R l → List.Pairwise R l := by
  intro l
  induction l with
  | nil => intro _ _; exact List.Pairwise.nil
  | cons x t ih =>
    intro htrans h
    refine List.pairwise_cons.mpr ⟨?_, ih (fun a ha b hb c hc => htrans a (List.mem_cons_of_mem x ha) b (List.mem_cons_of_mem x hb) c (List.mem_cons_of_mem x hc)) h.tail⟩
    intro y hy
    cases t with
    | nil => cases hy
    | cons c t' =>
      have hxc : R x c := (List.chain'_cons.mp h).1
      rcases List.mem_cons.mp hy with rfl | hy'
      · exact hxc
      · have hpt : List.Pairwise R (c :: t') :=
          ih (fun a ha b hb c' hc' => htrans a (List.mem_cons_of_mem x ha) b (List.mem_cons_of_mem x hb) c' (List.mem_cons_of_mem x hc')) h.tail
        have hcy : R c y := (List.pairwise_cons.mp hpt).1 y hy'
        exact htrans x (List.mem_cons_self x _) c (List.mem_cons_of_mem x (List.mem_cons_self c t')) y (List.mem_cons_of_mem x (List.mem_cons_of_mem c hy')) hxc hcy

theorem dateCompare_total (x y : Option Nat) :
    dateCompare x y ≤ 0 ∨ dateCompare y x ≤ 0 := by
  cases x with
  | none => cases y <;> simp [dateCompare, dGT, dLT]
  | some a =>
    cases y with
    | none => simp [dateCompare, dGT, dLT]
    | some b =>
      simp only [dateCompare, dGT, dLT]
      rcases Nat.lt_trichotomy a b with h | h | h
      · right
        rw [if_pos (by simpa using h)]
        decide
      · subst h
        left
        rw [if_neg (by simp), if_neg (by simp)]
      · left
        rw [if_pos (by simpa using h)]
        decide

theorem dateLeKey_total (key : α → Option String) (a b : α) :
    dateLeKey key a b = true ∨ dateLeKey key b a = true := by
  rcases dateCompare_total (jsDateParse (key a)) (jsDateParse (key b)) with h | h
  · exact Or.inl (by simpa [dateLeKey] using h)
  · exact Or.inr (by simpa [dateLeKey] using h)

theorem dateCompare_le_zero_of_some {x y : Nat} (h : y ≤ x) :
    dateCompare (some x) (some y) ≤ 0 := by
  simp only [dateCompare, dGT, dLT]
  by_cases hxy : y < x
  · rw [if_pos (by simpa using hxy)]
    decide
  · have : x = y := Nat.le_antisymm (Nat.le_of_not_lt hxy) h
    subst this
    rw [if_neg (by simp), if_neg (by simp)]

theorem le_of_dateCompare_some {x y : Nat}
    (h : dateCompare (some x) (some y) ≤ 0) : y ≤ x := by
  by_contra hlt
  have hxy : x < y := Nat.lt_of_not_le (fun hc => hlt hc)
  have h1 : dateCompare (some x) (some y) = 1 := by
    simp only [dateCompare, dGT, dLT]
    rw [if_neg (by simp [Nat.not_lt.mpr (Nat.le_of_lt hxy)]), if_pos (by simpa using hxy)]
  rw [h1] at h
  exact absurd h (by decide)

theorem dLT_false_of_le {x y : Option Nat} (h : dateCompare x y ≤ 0) : dLT x y = false := by
  cases x with
  | none => cases y <;> rfl
  | some a =>
    cases y with
    | none => rfl
    | some b =>
      by_cases hab : a < b
      · exfalso
        have h1 : dateCompare (some a) (some b) = 1 := by
          simp only [dateCompare, dGT, dLT]
          rw [if_neg (by simp [Nat.lt_asymm hab]), if_pos (by simpa using hab)]
        rw [h1] at h
        exact absurd h (by decide)
      · simp [dLT, hab]

theorem lexCmp_neg : ∀ x y : List Char, lexCmp y x = - lexCmp x y
  | [], [] => by simp [lexCmp]
  | [], _ :: _ => by simp [lexCmp]
  | _ :: _, [] => by simp [lexCmp]
  | a :: as, b :: bs => by
    simp only [lexCmp]
    by_cases h1 : a.toNat < b.toNat
    · simp [h1, Nat.lt_asymm h1]
    · by_cases h2 : b.toNat < a.toNat
      · simp [h1, h2]
      · simp only [if_neg h1, if_neg h2]
        exact lexCmp_neg as bs

theorem localeCompare_neg (a b : String) : localeCompare b a = - localeCompare a b := by
  unfold localeCompare
  rw [lexCmp_neg (lowerKey a) (lowerKey b), lexCmp_neg a.data b.data]
  by_cases h : lexCmp (lowerKey a) (lowerKey b) = 0 <;> simp [h, neg_eq_zero]

theorem projectLe_total (a b : Project) : projectLe a b = true ∨ projectLe b a = true := by
  simp only [projectLe, decide_eq_true_eq]
  rcases le_or_lt (localeCompare a.title b.title) 0 with h | h
  · exact Or.inl h
  · right
    rw [localeCompare_neg a.title b.title]
    omega

theorem projectLe_lower_le {a b : Project} (h : projectLe a b = true) :
    lexCmp (lowerKey a.title) (lowerKey b.title) ≤ 0 := by
  simp only [projectLe, decide_eq_true_eq] at h
  unfold localeCompare at h
  by_cases h0 : lexCmp (lowerKey a.title) (lowerKey b.title) = 0
  · omega
  · rw [if_neg h0] at h
    exact h

/-- C1: the papers rendered under the Publications heading and those
rendered under the Working Papers heading partition the supplied
collection: together they are a permutation of it, multiplicities add up
with no omission and no duplication, and every paper of the collection
belongs to exactly one of the two sections. -/
theorem C1_papers_partition (d : RenderData) :
    List.Perm (publicationsPapers d ++ workingPapers d) d.papers ∧
    (∀ p : Paper,
      List.count p d.papers =
        List.count p (publicationsPapers d) + List.count p (workingPapers d)) ∧
    (∀ p ∈ d.papers,
      (p ∈ publicationsPapers d ∧ p ∉ workingPapers d) ∨
      (p ∉ publicationsPapers d ∧ p ∈ workingPapers d)) := by
  have hperm : List.Perm (publicationsPapers d ++ workingPapers d) d.papers := by
    unfold publicationsPapers workingPapers whereAccepted whereNotAccepted
    exact List.filter_append_perm (fun p => p.data.accepted) d.papers
  refine ⟨hperm, ?_, ?_⟩
  · intro p
    rw [← hperm.count_eq p, List.count_append]
  · intro p hp
    by_cases h : p.data.accepted = true
    · refine Or.inl ⟨List.mem_filter.mpr ⟨hp, h⟩, fun hc => ?_⟩
      have := (List.mem_filter.mp hc).2
      simp [h] at this
    · exact Or.inr ⟨fun hc => h (List.mem_filter.mp hc).2,
        List.mem_filter.mpr ⟨hp, by simp [h]⟩⟩

/-- Witness for C1 at a concrete two-paper context. -/
theorem C1_papers_partition_witness :
    (samplePaperAccepted ∈ publicationsPapers sampleData ∧
      samplePaperAccepted ∉ workingPapers sampleData) ∨
    (samplePaperAccepted ∉ publicationsPapers sampleData ∧
      samplePaperAccepted ∈ workingPapers sampleData) :=
  (C1_papers_partition sampleData).2.2 samplePaperAccepted (by decide)

/-- C3: sortByDate is idempotent on every array and every date-field
key. -/
theorem C3_sortByDate_idem (l : List α) (key : α → Option String) :
    sortByDate (sortByDate l key) key = sortByDate l key :=
  jsSort_idem (dateLeKey key) (dateLeKey_total key) l

/-- C4 counterexample: the renderer does mutate a supplied collection.
With the refereeing list stored as b then a, evaluating the body sorts
the stored array in place (cv.11ty.js line 237), so afterwards the
collection no longer holds its elements in the original order. -/
theorem C4_counterexample :
    (renderDataAfter sampleData).cv.refereeing ≠ sampleData.cv.refereeing := by
  decide

/-- C4 (amended): the renderer never mutates the education, papers,
presentations, awards, research-experience, reference,
projects-professional or projects-personal collections, but it sorts the
refereeing array (line 237) and the projects-academic array (line 255)
in place, leaving each a permutation, in sorted order, of its original
elements. -/
theorem C4_mutation_amended (d : RenderData) :
    (renderDataAfter d).cv.education = d.cv.education ∧
    (renderDataAfter d).papers = d.papers ∧
    (renderDataAfter d).cv.presentations = d.cv.presentations ∧
    (renderDataAfter d).cv.awards = d.cv.awards ∧
    (renderDataAfter d).cv.researchexp = d.cv.researchexp ∧
    (renderDataAfter d).cv.references = d.cv.references ∧
    (renderDataAfter d).projects_professional = d.projects_professional ∧
    (renderDataAfter d).projects_personal = d.projects_personal ∧
    List.Perm (renderDataAfter d).cv.refereeing d.cv.refereeing ∧
    List.Perm (renderDataAfter d).projects_academic d.projects_academic :=
  ⟨rfl, rfl, rfl, rfl, rfl, rfl, rfl, rfl, jsSort_perm _ _, jsSort_perm _ _⟩

/-- C5: on exit code 0 the close handler performs exactly one relocation,
from the fixed working path to the fixed distribution path; on any other
exit code it performs zero relocations and exactly one diagnostic log
line; the handler is a total function (nothing is raised), and the
render return value is undefined either way, so the caller cannot
detect the failure. -/
theorem C5_close_handler (code : Int) :
    onClose code = (if code = 0 then [FsAction.rename "./tmp/cv.pdf" "./dist/cv.pdf"]
      else [FsAction.log ("LuaLaTeX process exited with code " ++ toString code ++ ".")]) ∧
    renameCount (onClose code) = (if code = 0 then 1 else 0) ∧
    logCount (onClose code) = (if code = 0 then 0 else 1) ∧
    renderResult code = none := by
  by_cases h : code = 0
  · subst h
    exact ⟨rfl, rfl, rfl, rfl⟩
  · simp [onClose, renameCount, logCount, renderResult, h, List.filter]

/-- C2 counterexample: with an unparsable date stored between two parsable
ones every comparison involving the middle entry returns 0, so the
mandated stability pins all three entries in place and the output keeps
a strictly increasing parsable pair, refuting the unrestricted
non-increasing ordering the claim states. -/
theorem C2_sortByDate_counterexample :
    sortByDate ["1970-01-02", "junk", "1970-01-03"] (fun s => some s) =
      ["1970-01-02", "junk", "1970-01-03"] ∧
    dLT (jsDateParse (some "1970-01-02")) (jsDateParse (some "1970-01-03")) = true ∧
    ¬ List.Pairwise
        (fun a b : String => (jsDateParse (some b)).getD 0 ≤ (jsDateParse (some a)).getD 0)
        (sortByDate ["1970-01-02", "junk", "1970-01-03"] (fun s => some s)) :=
  ⟨by decide, by decide, by decide⟩

/-- C2 (amended): sortByDate always returns a permutation of the input;
adjacent output entries never strictly increase in parsed date; whenever
every entry's selected date field parses, the output is pairwise
non-increasing in parsed date; and any two entries the comparator ties
(equal or unparsable dates, comparator 0) keep their original relative
order.  The unrestricted pairwise non-increasing ordering of the claim
fails when unparsable dates separate parsable ones. -/
theorem C2_sortByDate_amended (l : List α) (key : α → Option String) :
    List.Perm (sortByDate l key) l ∧
    List.Chain' (fun a b => dLT (jsDateParse (key a)) (jsDateParse (key b)) = false)
      (sortByDate l key) ∧
    ((∀ x ∈ l, (jsDateParse (key x)).isSome = true) →
      List.Pairwise (fun a b => (jsDateParse (key b)).getD 0 ≤ (jsDateParse (key a)).getD 0)
        (sortByDate l key)) ∧
    (∀ a b : α, List.Sublist [a, b] l →
      dateCompare (jsDateParse (key a)) (jsDateParse (key b)) = 0 →
      List.Sublist [a, b] (sortByDate l key)) := by
  rw [sortByDate_eq_jsSort]
  refine ⟨jsSort_perm _ l, ?_, ?_, ?_⟩
  · exact (jsSort_chain' _ (dateLeKey_total key) l).imp
      (fun a b h => dLT_false_of_le (of_decide_eq_true h))
  · intro hall
    have hmem : ∀ x ∈ jsSort (dateLeKey key) l, (jsDateParse (key x)).isSome = true :=
      fun x hx => hall x ((jsSort_perm _ l).mem_iff.mp hx)
    have hpw : List.Pairwise (fun a b => dateLeKey key a b = true) (jsSort (dateLeKey key) l) := by
      refine chain'_pairwise_local ?_ (jsSort_chain' (dateLeKey key) (dateLeKey_total key) l)
      intro a ha b hb c hc hab hbc
      obtain ⟨va, hva⟩ := Option.isSome_iff_exists.mp (hmem a ha)
      obtain ⟨vb, hvb⟩ := Option.isSome_iff_exists.mp (hmem b hb)
      obtain ⟨vc, hvc⟩ := Option.isSome_iff_exists.mp (hmem c hc)
      have h1 : vb ≤ va := le_of_dateCompare_some (by
        have h' := of_decide_eq_true hab
        rwa [hva, hvb] at h')
      have h2 : vc ≤ vb := le_of_dateCompare_some (by
        have h' := of_decide_eq_true hbc
        rwa [hvb, hvc] at h')
      unfold dateLeKey
      rw [hva, hvc]
      exact decide_eq_true (dateCompare_le_zero_of_some (le_trans h2 h1))
    refine hpw.imp_of_mem ?_
    intro a b ha hb h
    obtain ⟨va, hva⟩ := Option.isSome_iff_exists.mp (hmem a ha)
    obtain ⟨vb, hvb⟩ := Option.isSome_iff_exists.mp (hmem b hb)
    rw [hva, hvb]
    simp only [Option.getD_some]
    refine le_of_dateCompare_some ?_
    have h' := of_decide_eq_true h
    rwa [hva, hvb] at h'
  · intro a b hsub htie
    refine jsSort_stable _ a b l hsub ?_
    unfold dateLeKey
    rw [htie]
    exact decide_eq_true (by decide)

/-- Witness for C2 on a concrete list whose dates all parse and whose two
equal-dated entries keep their order. -/
theorem C2_sortByDate_witness :
    List.Pairwise
      (fun a b : String => (jsDateParse (some b)).getD 0 ≤ (jsDateParse (some a)).getD 0)
      (sortByDate ["1970-01-05", "1970-01-03", "1970-01-03"] (fun s => some s)) ∧
    List.Sublist ["1970-01-03", "1970-01-03"]
      (sortByDate ["1970-01-05", "1970-01-03", "1970-01-03"] (fun s => some s)) :=
  ⟨(C2_sortByDate_amended ["1970-01-05", "1970-01-03", "1970-01-03"] (fun s => some s)).2.2.1
      (by decide),
   (C2_sortByDate_amended ["1970-01-05", "1970-01-03", "1970-01-03"] (fun s => some s)).2.2.2
      "1970-01-03" "1970-01-03" (by decide) (by decide)⟩

theorem awardFields_eq (o₁ o₂ o₃ : Option String) :
    ([o₁, o₂, o₃].filter jsTruthy).map jsStr =
      ([o₁, o₂, o₃].filterMap id).filter (fun s => s != "") := by
  rcases o₁ with _ | s₁ <;> rcases o₂ with _ | s₂ <;> rcases o₃ with _ | s₃ <;>
    simp only [List.filter_cons, List.filterMap_cons, List.filter_nil, List.filterMap_nil,
      jsTruthy, jsStr, List.map_cons, List.map_nil] <;>
    split_ifs <;> simp_all [jsStr]

/-- C6: every award or research-experience entry renders as its non-empty
descriptive fields joined with a comma and a space followed by the
priority-chosen date annotation (single date year first, else start-end
year range, else nothing), and the concrete entry whose only descriptive
field is the title Prize and whose single date is 2020-01-01 renders as
the title followed by a dateright annotation holding 2020. -/
theorem C6_award_formatter (a : Award) :
    texAwardEntry a = awardEntrySpec a ∧
    texAwards [{ title := some "Prize", for_ := none, from_ := none,
                 date := some "2020-01-01", start := none, end_ := none }] =
      "Prize \\dateright\x7b2020\x7d" := by
  constructor
  · unfold texAwardEntry awardEntrySpec awardText awardDateString
    rw [awardFields_eq]
  · decide

/-- C7: the co-author annotation is rendered exactly when the paper has
more than one author, and when rendered it lists the names of all
authors other than the profile owner joined with a comma and a space; in
particular a paper whose sole author is the profile owner renders no
annotation. -/
theorem C7_coauthors (site : Site) (paper : Paper) :
    (withString site paper = "" ↔ paper.data.authors.length ≤ 1) ∧
    (paper.data.authors.length > 1 →
      withString site paper =
        " (with " ++
          joinSep ", " ((paper.data.authors.filter (fun x => x.name != site.title)).map
            (fun x => x.name)) ++ ")") := by
  constructor
  · constructor
    · intro h
      by_contra hlen
      have hgt : paper.data.authors.length > 1 := Nat.lt_of_not_le hlen
      unfold withString at h
      rw [if_pos hgt] at h
      have hlen0 := congrArg String.length h
      rw [String.length_append, String.length_append] at hlen0
      have h7 : (" (with " : String).length = 7 := by decide
      have h0 : ("" : String).length = 0 := by decide
      omega
    · intro h
      unfold withString
      rw [if_neg (Nat.not_lt.mpr h)]
  · intro h
    unfold withString where_not_name
    rw [if_pos h]

/-- Witness for C7: the sample two-author paper renders the annotation
naming Jane, and the sole-author sample paper renders the empty
annotation. -/
theorem C7_coauthors_witness :
    withString sampleSite samplePaperAccepted = " (with Jane)" ∧
    withString sampleSite samplePaperWorking = "" := by
  constructor
  · rw [(C7_coauthors sampleSite samplePaperAccepted).2 (by decide)]
    decide
  · exact (C7_coauthors sampleSite samplePaperWorking).1.mpr (by decide)

theorem replaceFirstChars_eq (pat rep : List Char) :
    ∀ s : List Char,
      replaceFirstChars pat rep s =
        match findSub pat s with
        | none => s
        | some i => s.take i ++ rep ++ s.drop (i + pat.length) := by
  intro s
  induction s with
  | nil =>
    by_cases h : pat.isEmpty
    · have hp : pat = [] := List.isEmpty_iff.mp h
      subst hp
      simp [replaceFirstChars, findSub]
    · simp [replaceFirstChars, findSub, h]
  | cons c rest ih =>
    by_cases h : leadsWith pat (c :: rest) = true
    · simp [replaceFirstChars, findSub, h]
    · simp only [replaceFirstChars, findSub, if_neg h, ih]
      cases hfs : findSub pat rest with
      | none => simp
      | some i =>
        have hc : i + 1 + pat.length = i + pat.length + 1 := Nat.add_right_comm i 1 pat.length
        simp [hc, List.take_succ_cons, List.drop_succ_cons]

/-- C8: the reference formatter substitutes an at sign for exactly the
first occurrence of the two-dot placeholder in the stored email
(characterised through the index of the first occurrence), applies that
identical single replacement to both the mailto target and the visible
text, and in particular renders the stored email jane..doe.com as
jane@doe.com in both positions while a second placeholder occurrence is
left alone. -/
theorem C8_reference_email (reference : Reference) (email : String) :
    (deobfuscate email =
      match findSub ['.', '.'] email.data with
      | none => email
      | some i => String.mk (email.data.take i ++ ['@'] ++ email.data.drop (i + 2))) ∧
    texReferenceEntry reference =
      "\\cvsubsection\x7b\\href\x7b" ++ reference.url ++ "\x7d\x7b" ++ reference.title ++
        "\x7d\x7d\n          \n          \\cvsubsubsection\x7b" ++ reference.description ++
        "\x7d\n          \n          \\href\x7bmailto:" ++ deobfuscate reference.email ++
        "\x7d\x7b" ++ deobfuscate reference.email ++ "\x7d" ∧
    deobfuscate "jane..doe.com" = "jane@doe.com" ∧
    deobfuscate "a..b..c" = "a@b..c" := by
  refine ⟨?_, rfl, by decide, by decide⟩
  unfold deobfuscate jsReplace
  rw [replaceFirstChars_eq]
  cases findSub ['.', '.'] email.data with
  | none => rfl
  | some i => rfl

/-- C10: year extraction is total — the embedding of getYear yields the
NaN marker instead of failing on an unparsable input — yearString
interpolates that NaN as literal text on exactly those inputs, and a
concrete education entry with an unparsable start date renders with the
text NaN inside its year range instead of failing the render. -/
theorem C10_getYear_total (s : String) :
    (getYear s = none → yearString s = "NaN") ∧
    (∀ y : Nat, getYear s = some y → yearString s = toString y) ∧
    getYear "not-a-date" = none ∧
    texEducation [{ school := "U",
                    degrees := [{ title := "PhD", start := "not-a-date",
                                  end_ := "2020-06-01" }] }] =
      "\\cvsubsection\x7bU\x7d\n\n\\cvsubsubsection\x7bPhD\x7d \\dateright\x7bNaN--2020\x7d" := by
  refine ⟨?_, ?_, by decide, by decide⟩
  · intro h
    unfold yearString
    rw [h]
  · intro y h
    unfold yearString
    rw [h]

/-- Witness for C10 at an unparsable and a parsable date string. -/
theorem C10_getYear_total_witness :
    yearString "not-a-date" = "NaN" ∧ yearString "2020-06-01" = "2020" :=
  ⟨(C10_getYear_total "not-a-date").1 (by decide),
   (C10_getYear_total "2020-06-01").2.1 2020 (by decide)⟩

/-- C9: both software lists handed to the list formatter are sorted so
that every adjacent pair of entries is in non-decreasing title order
under case-insensitive lexical comparison. -/
theorem C9_software_sorted (d : RenderData) :
    List.Chain' (fun a b : Project => lexCmp (lowerKey a.title) (lowerKey b.title) ≤ 0)
      (softwareAcademic d) ∧
    List.Chain' (fun a b : Project => lexCmp (lowerKey a.title) (lowerKey b.title) ≤ 0)
      (softwareOther d) :=
  ⟨(jsSort_chain' projectLe projectLe_total _).imp (fun _ _ h => projectLe_lower_le h),
   (jsSort_chain' projectLe projectLe_total _).imp (fun _ _ h => projectLe_lower_le h)⟩

end CV
